import Mathlib

/-!
Shallow embedding of `code/AssetLib/FBX/FBXProperties.cpp` (the FBX dynamic
properties system) and proofs about it.

Modelling conventions:
* Token parsing (`ParseTokenAsString` / `...AsInt` / `...AsInt64` / `...AsID` /
  `...AsFloat` from the tokenizer layer) is an external collaborator of this
  subsystem; a `Token` therefore carries the result of each typed parse as a
  field, and the parse helpers are projections.  No floating-point arithmetic
  is performed in this subsystem — float values are only copied from tokens
  into properties — so the float payload is carried as `Rat`, an arbitrary
  value domain with decidable equality.
* `DeadlyImportError` (a C++ exception) becomes the `Except` monad; the error
  value records the property type tag and the source location exactly as the
  exception message does (byte offset for binary tokens, line for text).
* `ai_assert` failures and out-of-bounds `std::vector` indexing (undefined
  behaviour in C++) are modelled as the distinguished error values
  `DecodeError.assertFail` and `DecodeError.oobAccess`; theorems show the
  modelled code never produces them.
* `PropertyTable` owns two maps: `lazyProps` (name → raw element, built at
  construction) and the mutable decode cache `props` (name → stored decode
  result, where a stored `none` models a cached null pointer).  Both are
  association lists.  The mutable cache becomes explicit state threading:
  `Get` returns the updated table (the template chain included, since a
  delegated call mutates the parent's cache).
* `DOMWarning` diagnostics are collected in a list returned by construction.
-/

namespace FBX

/-- Source location of a token: byte offset for binary input, line number for
text input (mutually exclusive per token, as in the C++ `Token`). -/
inductive TokLocation : Type where
  | binaryOffset (off : Nat) : TokLocation
  | textLine (line : Nat) : TokLocation
deriving DecidableEq, Repr

/-- A tokenizer token.  The typed parse helpers of the tokenizer layer are
external collaborators, so the token carries each parse result as a field,
together with its binary/text origin flag and source location. -/
structure Token : Type where
  stringContents : String
  intContents : Int
  int64Contents : Int
  idContents : Nat
  floatContents : Rat
  isBinary : Bool
  offset : Nat
  line : Nat
deriving DecidableEq, Repr, Inhabited

/-- ParseTokenAsString from the tokenizer layer (assumed interface). -/
def ParseTokenAsString (t : Token) : String := t.stringContents

/-- ParseTokenAsInt from the tokenizer layer (assumed interface). -/
def ParseTokenAsInt (t : Token) : Int := t.intContents

/-- ParseTokenAsInt64 from the tokenizer layer (assumed interface). -/
def ParseTokenAsInt64 (t : Token) : Int := t.int64Contents

/-- ParseTokenAsID from the tokenizer layer (assumed interface). -/
def ParseTokenAsID (t : Token) : Nat := t.idContents

/-- ParseTokenAsFloat from the tokenizer layer (assumed interface). -/
def ParseTokenAsFloat (t : Token) : Rat := t.floatContents

/-- The ordered token list of an element, as in `FBXTokenizer.h`. -/
abbrev TokenList := List Token

/-- A parsed document element: its ordered token sequence.  The key string is
carried separately by the owning scope's element map (as the `first`
component of `ElementMap::value_type`), and nested scopes are obtained from
the document layer, so neither is part of this record. -/
structure Element : Type where
  tokens : TokenList
deriving DecidableEq, Repr

/-- A decoded property value: the closed union of the eight shapes produced by
`ReadTypedProperty` (`TypedProperty<T>` for the respective `T`). -/
inductive Property : Type where
  | stringVal (s : String) : Property
  | boolVal (b : Bool) : Property
  | intVal (i : Int) : Property
  | uint64Val (u : Nat) : Property
  | int64Val (i : Int) : Property
  | vector3 (x y z : Rat) : Property
  | floatVal (f : Rat) : Property
  | color4 (r g b a : Rat) : Property
deriving DecidableEq, Repr

/-- A decode failure.  `notEnoughTokens` carries exactly the data of the
`DeadlyImportError` message thrown by `checkTokenCount`: the property type-tag
string and the source location of token 1.  `assertFail` models a violated
`ai_assert`, and `oobAccess` models an out-of-bounds token index (undefined
behaviour in the C++); the theorems below show the code never produces
either. -/
inductive DecodeError : Type where
  | notEnoughTokens (typeTag : String) (loc : TokLocation) : DecodeError
  | assertFail : DecodeError
  | oobAccess : DecodeError
deriving DecidableEq, Repr

/-- Location cited by a decode error for token `t`: offset when the token is
binary, line when it is text (mirrors the `IsBinary()` branch in
`checkTokenCount`). -/
def tokenLoc (t : Token) : TokLocation :=
  if t.isBinary then .binaryOffset t.offset else .textLine t.line

/-- Indexing `tok[i]` on a `TokenList`; an out-of-bounds access (undefined
behaviour in C++) is modelled as the `oobAccess` error. -/
def getTok (tok : TokenList) (i : Nat) : Except DecodeError Token :=
  match tok[i]? with
  | some t => .ok t
  | none => .error .oobAccess

/-- The anonymous-namespace helper `checkTokenCount`: asserts
`expectedCount >= 2`, then throws `DeadlyImportError` ("Not enough tokens for
property of type ⟨tag⟩ at ⟨offset|line⟩ ...") when the element has fewer than
`expectedCount` tokens. -/
def checkTokenCount (tok : TokenList) (expectedCount : Nat) : Except DecodeError Unit :=
  if expectedCount < 2 then .error .assertFail
  else if tok.length < expectedCount then
    match tok[1]? with
    | some t => .error (.notEnoughTokens (ParseTokenAsString t) (tokenLoc t))
    | none => .error .oobAccess
  else .ok ()

/-- ReadTypedProperty: reads a typed property out of an FBX "P" element,
dispatching on the type-tag string in token 1; returns `none` (a C++ null
pointer) when the element has fewer than 2 tokens or the tag is unknown. -/
def ReadTypedProperty (element : Element) : Except DecodeError (Option Property) := do
  let tok := element.tokens
  if tok.length < 2 then
    return none
  let t1 ← getTok tok 1
  let s := ParseTokenAsString t1
  if s = "KString" then
    checkTokenCount tok 5
    let t4 ← getTok tok 4
    return some (.stringVal (ParseTokenAsString t4))
  else if s = "bool" ∨ s = "Bool" then
    checkTokenCount tok 5
    let t4 ← getTok tok 4
    return some (.boolVal (ParseTokenAsInt t4 != 0))
  else if s = "int" ∨ s = "Int" ∨ s = "enum" ∨ s = "Enum" ∨ s = "Integer" then
    checkTokenCount tok 5
    let t4 ← getTok tok 4
    return some (.intVal (ParseTokenAsInt t4))
  else if s = "ULongLong" then
    checkTokenCount tok 5
    let t4 ← getTok tok 4
    return some (.uint64Val (ParseTokenAsID t4))
  else if s = "KTime" then
    checkTokenCount tok 5
    let t4 ← getTok tok 4
    return some (.int64Val (ParseTokenAsInt64 t4))
  else if s = "Vector3D" ∨ s = "ColorRGB" ∨ s = "Vector" ∨ s = "Color" ∨
      s = "Lcl Translation" ∨ s = "Lcl Rotation" ∨ s = "Lcl Scaling" then
    checkTokenCount tok 7
    let t4 ← getTok tok 4
    let t5 ← getTok tok 5
    let t6 ← getTok tok 6
    return some (.vector3 (ParseTokenAsFloat t4) (ParseTokenAsFloat t5) (ParseTokenAsFloat t6))
  else if s = "double" ∨ s = "Number" ∨ s = "float" ∨ s = "Float" ∨
      s = "FieldOfView" ∨ s = "UnitScaleFactor" then
    checkTokenCount tok 5
    let t4 ← getTok tok 4
    return some (.floatVal (ParseTokenAsFloat t4))
  else if s = "ColorAndAlpha" then
    checkTokenCount tok 8
    let t4 ← getTok tok 4
    let t5 ← getTok tok 5
    let t6 ← getTok tok 6
    let t7 ← getTok tok 7
    return some (.color4 (ParseTokenAsFloat t4) (ParseTokenAsFloat t5)
      (ParseTokenAsFloat t6) (ParseTokenAsFloat t7))
  else
    return none

/-- PeekPropertyName: the property name of a "P" element (its token 0), or the
empty string when the element has fewer than 4 tokens. -/
def PeekPropertyName (element : Element) : String :=
  if element.tokens.length < 4 then ""
  else ParseTokenAsString (element.tokens.getD 0 default)

/-- A non-fatal `DOMWarning` diagnostic emitted while building a property
table: a child whose key is not "P", a "P" record with no usable name, or a
duplicate property name. -/
inductive Diagnostic : Type where
  | nonPElement (key : String) (elem : Element) : Diagnostic
  | unnamedProperty (elem : Element) : Diagnostic
  | duplicateName (name : String) (elem : Element) : Diagnostic
deriving DecidableEq, Repr

/-- The decode cache `props`: name → stored decode result.  Presence of an
entry means the name has been decoded; a stored `none` is a cached null
pointer (permanent negative entry). -/
abbrev PropertyMap := List (String × Option Property)

/-- The raw index `lazyProps`: name → raw "P" element, built at
construction. -/
abbrev LazyPropertyMap := List (String × Element)

/-- A property table: the raw index, the decode cache, and the optional
template table (`templateProps`, a shared pointer in the C++, null when no
template exists).  The inductive structure makes the template chain finite
and acyclic by construction, exactly as the C++ builds it (assigned once at
construction, never mutated). -/
inductive PropertyTable : Type where
  | mk (lazyProps : LazyPropertyMap) (props : PropertyMap)
      (templateProps : Option PropertyTable) : PropertyTable

/-- The raw index of a table. -/
def PropertyTable.lazyProps : PropertyTable → LazyPropertyMap
  | .mk l _ _ => l

/-- The decode cache of a table. -/
def PropertyTable.props : PropertyTable → PropertyMap
  | .mk _ c _ => c

/-- The template table of a table, when one exists. -/
def PropertyTable.templateProps : PropertyTable → Option PropertyTable
  | .mk _ _ p => p

/-- Length of the template chain above a table. -/
def PropertyTable.chainDepth : PropertyTable → Nat
  | .mk _ _ none => 0
  | .mk _ _ (some p) => p.chainDepth + 1

/-- The constructor loop of `PropertyTable::PropertyTable`: scan the owning
scope's element map; skip (with a diagnostic) children whose key is not "P",
"P" records with no usable name, and duplicates of an already-indexed name;
otherwise bind the name to the record.  `acc` and `diags` are the raw index
and diagnostic list built so far. -/
def buildLazyProps : List (String × Element) → LazyPropertyMap → List Diagnostic →
    LazyPropertyMap × List Diagnostic
  | [], acc, diags => (acc, diags)
  | (key, elem) :: rest, acc, diags =>
    if key ≠ "P" then
      buildLazyProps rest acc (diags ++ [.nonPElement key elem])
    else
      let name := PeekPropertyName elem
      if name.length = 0 then
        buildLazyProps rest acc (diags ++ [.unnamedProperty elem])
      else
        match acc.lookup name with
        | some _ => buildLazyProps rest acc (diags ++ [.duplicateName name elem])
        | none => buildLazyProps rest (acc ++ [(name, elem)]) diags

/-- PropertyTable construction: build the raw index from the node's children
(the owning scope's element map, each child paired with its key), store the
template table, start with an empty cache; also return the diagnostics
emitted. -/
def PropertyTable.construct (children : List (String × Element))
    (templateProps : Option PropertyTable) : PropertyTable × List Diagnostic :=
  let built := buildLazyProps children [] []
  (.mk built.1 [] templateProps, built.2)

/-- PropertyTable::Get: return the cached entry if present; else decode the
raw record if the name is indexed, store the result (value or null) in the
cache and return it; else delegate to the template table; else return null.
The returned table is the input table with every cache update applied
(including updates inside the template chain made by a delegated call). -/
def PropertyTable.Get : PropertyTable → String →
    Except DecodeError (Option Property × PropertyTable)
  | .mk lazy cache tmpl, name =>
    match cache.lookup name with
    | some cached => .ok (cached, .mk lazy cache tmpl)
    | none =>
      match lazy.lookup name with
      | some elem => do
          let v ← ReadTypedProperty elem
          .ok (v, .mk lazy ((name, v) :: cache) tmpl)
      | none =>
        match tmpl with
        | some parentTable => do
            let r ← parentTable.Get name
            .ok (r.1, .mk lazy cache (some r.2))
        | none => .ok (none, .mk lazy cache tmpl)
termination_by structural t _ => t

/-- The loop of `PropertyTable::GetUnparsedProperties` over the raw index
entries: skip names present in the cache `cache`, decode the rest fresh
(propagating decode errors), and keep the non-null results. -/
def unparsedLoop (cache : PropertyMap) :
    List (String × Element) → Except DecodeError (List (String × Property))
  | [] => .ok []
  | (name, elem) :: rest =>
    if (cache.lookup name).isSome then unparsedLoop cache rest
    else do
      let p ← ReadTypedProperty elem
      let restResult ← unparsedLoop cache rest
      match p with
      | none => .ok restResult
      | some v => .ok ((name, v) :: restResult)

/-- PropertyTable::GetUnparsedProperties: decode every raw-index entry not
already in the cache into a freshly allocated result map, skipping entries
that decode to null; the table itself is not touched (the function reads
`lazyProps` and `props` and writes only the local `result`). -/
def PropertyTable.GetUnparsedProperties (t : PropertyTable) :
    Except DecodeError (List (String × Property)) :=
  unparsedLoop t.props t.lazyProps

/-- Modelled from the spec: the decode table of section 4.2, mapping each
supported type tag to its minimum token count (`none` for unsupported tags).
Used only to state refinement claims against `ReadTypedProperty`. -/
def specTagMinTokens (s : String) : Option Nat :=
  if s = "KString" then some 5
  else if s = "bool" ∨ s = "Bool" then some 5
  else if s = "int" ∨ s = "Int" ∨ s = "enum" ∨ s = "Enum" ∨ s = "Integer" then some 5
  else if s = "ULongLong" then some 5
  else if s = "KTime" then some 5
  else if s = "Vector3D" ∨ s = "ColorRGB" ∨ s = "Vector" ∨ s = "Color" ∨
      s = "Lcl Translation" ∨ s = "Lcl Rotation" ∨ s = "Lcl Scaling" then some 7
  else if s = "double" ∨ s = "Number" ∨ s = "float" ∨ s = "Float" ∨
      s = "FieldOfView" ∨ s = "UnitScaleFactor" then some 5
  else if s = "ColorAndAlpha" then some 8
  else none

/-- Modelled from the spec: the value shape the decode table of section 4.2
assigns to each supported tag, read from the fixed token positions starting at
index 4 (tokens 4,5,6 for vectors; tokens 4..7 for RGBA).  Used only to state
refinement claims against `ReadTypedProperty`. -/
def specExpectedValue (s : String) (tok : TokenList) : Option Property :=
  let t4 := tok.getD 4 default
  let t5 := tok.getD 5 default
  let t6 := tok.getD 6 default
  let t7 := tok.getD 7 default
  if s = "KString" then some (.stringVal (ParseTokenAsString t4))
  else if s = "bool" ∨ s = "Bool" then some (.boolVal (ParseTokenAsInt t4 != 0))
  else if s = "int" ∨ s = "Int" ∨ s = "enum" ∨ s = "Enum" ∨ s = "Integer" then
    some (.intVal (ParseTokenAsInt t4))
  else if s = "ULongLong" then some (.uint64Val (ParseTokenAsID t4))
  else if s = "KTime" then some (.int64Val (ParseTokenAsInt64 t4))
  else if s = "Vector3D" ∨ s = "ColorRGB" ∨ s = "Vector" ∨ s = "Color" ∨
      s = "Lcl Translation" ∨ s = "Lcl Rotation" ∨ s = "Lcl Scaling" then
    some (.vector3 (ParseTokenAsFloat t4) (ParseTokenAsFloat t5) (ParseTokenAsFloat t6))
  else if s = "double" ∨ s = "Number" ∨ s = "float" ∨ s = "Float" ∨
      s = "FieldOfView" ∨ s = "UnitScaleFactor" then
    some (.floatVal (ParseTokenAsFloat t4))
  else if s = "ColorAndAlpha" then
    some (.color4 (ParseTokenAsFloat t4) (ParseTokenAsFloat t5)
      (ParseTokenAsFloat t6) (ParseTokenAsFloat t7))
  else none


/-- A sample text token with given string, integer and float parse payloads
(text origin, line 1); used by the witness theorems. -/
def mkTok (s : String) (i : Int) (f : Rat) : Token :=
  { stringContents := s, intContents := i, int64Contents := i, idContents := i.natAbs,
    floatContents := f, isBinary := false, offset := 0, line := 1 }

/-- A sample binary token (offset 42); used by the witness theorems. -/
def binTok (s : String) : Token :=
  { stringContents := s, intContents := 0, int64Contents := 0, idContents := 0,
    floatContents := 0, isBinary := true, offset := 42, line := 0 }

/-- Sample record P("Lcl Rotation","Vector3D","","A",10.0,20.0,30.0). -/
def lclRotElem : Element :=
  ⟨[mkTok "Lcl Rotation" 0 0, mkTok "Vector3D" 0 0, mkTok "" 0 0, mkTok "A" 0 0,
    mkTok "10.0" 0 10, mkTok "20.0" 0 20, mkTok "30.0" 0 30]⟩

/-- Sample record P("Visibility","bool","","A",1). -/
def visElem : Element :=
  ⟨[mkTok "Visibility" 0 0, mkTok "bool" 0 0, mkTok "" 0 0, mkTok "A" 0 0, mkTok "1" 1 1]⟩

/-- Sample record P("Weight","double","","A",0.5). -/
def weightElem : Element :=
  ⟨[mkTok "Weight" 0 0, mkTok "double" 0 0, mkTok "" 0 0, mkTok "A" 0 0, mkTok "0.5" 0 (1/2)]⟩

/-- Sample record of an unknown type tag: P("Custom","MyType","","A"). -/
def customElem : Element :=
  ⟨[mkTok "Custom" 0 0, mkTok "MyType" 0 0, mkTok "" 0 0, mkTok "A" 0 0]⟩

/-- Sample Vector3D record with one token too few (6 of 7). -/
def shortVecElem : Element :=
  ⟨[mkTok "Lcl Rotation" 0 0, mkTok "Vector3D" 0 0, mkTok "" 0 0, mkTok "A" 0 0,
    mkTok "10.0" 0 10, mkTok "20.0" 0 20]⟩

/-- Sample KString record with too few tokens whose type-tag token is binary. -/
def binShortElem : Element :=
  ⟨[mkTok "N" 0 0, binTok "KString", mkTok "" 0 0]⟩

/-- Second sample "Weight" record with a different value (for duplicate tests). -/
def weightElem2 : Element :=
  ⟨[mkTok "Weight" 0 0, mkTok "double" 0 0, mkTok "" 0 0, mkTok "A" 0 0, mkTok "2.0" 0 2]⟩

/-- Sample record named "Custom" that decodes to a float value. -/
def custom2Elem : Element :=
  ⟨[mkTok "Custom" 0 0, mkTok "double" 0 0, mkTok "" 0 0, mkTok "A" 0 0, mkTok "0.5" 0 (1/2)]⟩

/-- Sample "P" record with fewer than 4 tokens (no usable name). -/
def noNameP : Element := ⟨[mkTok "X" 0 0]⟩

/-- Sample child list: one non-"P" child, one unnamed "P" record, one usable
"Weight" record and one duplicate of it. -/
def demoChildren : List (String × Element) :=
  [("Obj", customElem), ("P", noNameP), ("P", weightElem), ("P", weightElem2)]

/-- Matches the non-"P"-child diagnostic. -/
def isNonPDiag : Diagnostic → Bool
  | .nonPElement _ _ => true
  | _ => false

/-- Matches the unusable-name diagnostic. -/
def isUnnamedDiag : Diagnostic → Bool
  | .unnamedProperty _ => true
  | _ => false

/-- Matches the duplicate-name diagnostic for the given name. -/
def isDupDiag (name : String) : Diagnostic → Bool
  | .duplicateName nm _ => nm == name
  | _ => false

/-- Sample table owning a "Weight" record, with no template. -/
def topT : PropertyTable := .mk [("Weight", weightElem)] [] none

/-- Sample middle table of a chain: empty, delegating to topT. -/
def midT : PropertyTable := .mk [] [] (some topT)

/-- Sample template table that defines "Custom" with a non-empty value. -/
def richParentT : PropertyTable := .mk [("Custom", custom2Elem)] [] none

theorem getTok_eq_ok {tok : TokenList} {i : Nat} (h : i < tok.length) :
    getTok tok i = .ok (tok.getD i default) := by
  simp [getTok, List.getD, List.getElem?_eq_getElem h]

theorem checkTokenCount_ok {tok : TokenList} {c : Nat} (h2 : 2 ≤ c) (h : c ≤ tok.length) :
    checkTokenCount tok c = .ok () := by
  unfold checkTokenCount
  rw [if_neg (by omega), if_neg (by omega)]
theorem length_pos_of_tok1 {tok : TokenList} {t1 : Token} (h1 : tok[1]? = some t1) :
    1 < tok.length := by
  by_contra h
  rw [List.getElem?_eq_none (by omega)] at h1
  exact Option.noConfusion h1

theorem RTP_supported_ok (tok : TokenList) (t1 : Token) (n : Nat)
    (h1 : tok[1]? = some t1)
    (hmin : specTagMinTokens (ParseTokenAsString t1) = some n)
    (hlen : n ≤ tok.length) :
    ReadTypedProperty ⟨tok⟩ =
      .ok (specExpectedValue (ParseTokenAsString t1) tok) := by
  have h2 : ¬ (tok.length < 2) := by have := length_pos_of_tok1 h1; omega
  unfold specTagMinTokens at hmin
  split_ifs at hmin with hs1 hs2 hs3 hs4 hs5 hs6 hs7 hs8
  · injection hmin with hn; subst hn
    simp only [ReadTypedProperty, specExpectedValue, hs1, getTok, h1, bind, Except.bind,
      pure, Except.pure, if_neg h2]
    simp only [checkTokenCount_ok (show 2 ≤ 5 by omega) hlen]
    simp [List.getD, List.getElem?_eq_getElem (show 4 < tok.length by omega)]
  · injection hmin with hn; subst hn
    rcases hs2 with hs | hs <;>
    · simp only [ReadTypedProperty, specExpectedValue, hs, getTok, h1, bind, Except.bind,
        pure, Except.pure, if_neg h2]
      simp only [checkTokenCount_ok (show 2 ≤ 5 by omega) hlen]
      simp [List.getD, List.getElem?_eq_getElem (show 4 < tok.length by omega)]
  · injection hmin with hn; subst hn
    rcases hs3 with hs | hs | hs | hs | hs <;>
    · simp only [ReadTypedProperty, specExpectedValue, hs, getTok, h1, bind, Except.bind,
        pure, Except.pure, if_neg h2]
      simp only [checkTokenCount_ok (show 2 ≤ 5 by omega) hlen]
      simp [List.getD, List.getElem?_eq_getElem (show 4 < tok.length by omega)]
  · injection hmin with hn; subst hn
    simp only [ReadTypedProperty, specExpectedValue, hs4, getTok, h1, bind, Except.bind,
      pure, Except.pure, if_neg h2]
    simp only [checkTokenCount_ok (show 2 ≤ 5 by omega) hlen]
    simp [List.getD, List.getElem?_eq_getElem (show 4 < tok.length by omega)]
  · injection hmin with hn; subst hn
    simp only [ReadTypedProperty, specExpectedValue, hs5, getTok, h1, bind, Except.bind,
      pure, Except.pure, if_neg h2]
    simp only [checkTokenCount_ok (show 2 ≤ 5 by omega) hlen]
    simp [List.getD, List.getElem?_eq_getElem (show 4 < tok.length by omega)]
  · injection hmin with hn; subst hn
    rcases hs6 with hs | hs | hs | hs | hs | hs | hs <;>
    · simp only [ReadTypedProperty, specExpectedValue, hs, getTok, h1, bind, Except.bind,
        pure, Except.pure, if_neg h2]
      simp only [checkTokenCount_ok (show 2 ≤ 7 by omega) hlen]
      simp [List.getD, List.getElem?_eq_getElem (show 4 < tok.length by omega),
        List.getElem?_eq_getElem (show 5 < tok.length by omega),
        List.getElem?_eq_getElem (show 6 < tok.length by omega)]
  · injection hmin with hn; subst hn
    rcases hs7 with hs | hs | hs | hs | hs | hs <;>
    · simp only [ReadTypedProperty, specExpectedValue, hs, getTok, h1, bind, Except.bind,
        pure, Except.pure, if_neg h2]
      simp only [checkTokenCount_ok (show 2 ≤ 5 by omega) hlen]
      simp [List.getD, List.getElem?_eq_getElem (show 4 < tok.length by omega)]
  · injection hmin with hn; subst hn
    simp only [ReadTypedProperty, specExpectedValue, hs8, getTok, h1, bind, Except.bind,
      pure, Except.pure, if_neg h2]
    simp only [checkTokenCount_ok (show 2 ≤ 8 by omega) hlen]
    simp [List.getD, List.getElem?_eq_getElem (show 4 < tok.length by omega),
      List.getElem?_eq_getElem (show 5 < tok.length by omega),
      List.getElem?_eq_getElem (show 6 < tok.length by omega),
      List.getElem?_eq_getElem (show 7 < tok.length by omega)]

theorem checkTokenCount_err2 {tok : TokenList} {c : Nat} {t1 : Token} (h2 : 2 ≤ c)
    (h1 : tok[1]? = some t1) (h : tok.length < c) :
    checkTokenCount tok c =
      .error (.notEnoughTokens (ParseTokenAsString t1) (tokenLoc t1)) := by
  unfold checkTokenCount
  rw [if_neg (by omega), if_pos h, h1]

theorem RTP_supported_err (tok : TokenList) (t1 : Token) (n : Nat)
    (h1 : tok[1]? = some t1)
    (hmin : specTagMinTokens (ParseTokenAsString t1) = some n)
    (hshort : tok.length < n) :
    ReadTypedProperty ⟨tok⟩ =
      .error (.notEnoughTokens (ParseTokenAsString t1) (tokenLoc t1)) := by
  have h2 : ¬ (tok.length < 2) := by have := length_pos_of_tok1 h1; omega
  unfold specTagMinTokens at hmin
  split_ifs at hmin with hs1 hs2 hs3 hs4 hs5 hs6 hs7 hs8 <;>
    injection hmin with hn <;> subst hn
  · simp only [ReadTypedProperty, hs1, getTok, h1, bind, Except.bind, pure, Except.pure,
      if_neg h2, checkTokenCount_err2 (show 2 ≤ 5 by omega) h1 hshort]
    simp
  · rcases hs2 with hs | hs <;>
    · simp only [ReadTypedProperty, hs, getTok, h1, bind, Except.bind, pure, Except.pure,
        if_neg h2, checkTokenCount_err2 (show 2 ≤ 5 by omega) h1 hshort]
      simp
  · rcases hs3 with hs | hs | hs | hs | hs <;>
    · simp only [ReadTypedProperty, hs, getTok, h1, bind, Except.bind, pure, Except.pure,
        if_neg h2, checkTokenCount_err2 (show 2 ≤ 5 by omega) h1 hshort]
      simp
  · simp only [ReadTypedProperty, hs4, getTok, h1, bind, Except.bind, pure, Except.pure,
      if_neg h2, checkTokenCount_err2 (show 2 ≤ 5 by omega) h1 hshort]
    simp
  · simp only [ReadTypedProperty, hs5, getTok, h1, bind, Except.bind, pure, Except.pure,
      if_neg h2, checkTokenCount_err2 (show 2 ≤ 5 by omega) h1 hshort]
    simp
  · rcases hs6 with hs | hs | hs | hs | hs | hs | hs <;>
    · simp only [ReadTypedProperty, hs, getTok, h1, bind, Except.bind, pure, Except.pure,
        if_neg h2, checkTokenCount_err2 (show 2 ≤ 7 by omega) h1 hshort]
      simp
  · rcases hs7 with hs | hs | hs | hs | hs | hs <;>
    · simp only [ReadTypedProperty, hs, getTok, h1, bind, Except.bind, pure, Except.pure,
        if_neg h2, checkTokenCount_err2 (show 2 ≤ 5 by omega) h1 hshort]
      simp
  · simp only [ReadTypedProperty, hs8, getTok, h1, bind, Except.bind, pure, Except.pure,
      if_neg h2, checkTokenCount_err2 (show 2 ≤ 8 by omega) h1 hshort]
    simp

theorem RTP_short (tok : TokenList) (h : tok.length < 2) :
    ReadTypedProperty ⟨tok⟩ = .ok none := by
  simp [ReadTypedProperty, h, pure, Except.pure]

theorem RTP_unknown (tok : TokenList) (t1 : Token)
    (h1 : tok[1]? = some t1)
    (hmin : specTagMinTokens (ParseTokenAsString t1) = none) :
    ReadTypedProperty ⟨tok⟩ = .ok none := by
  have h2 : ¬ (tok.length < 2) := by have := length_pos_of_tok1 h1; omega
  unfold specTagMinTokens at hmin
  split_ifs at hmin with hs1 hs2 hs3 hs4 hs5 hs6 hs7 hs8
  simp only [ReadTypedProperty, getTok, h1, bind, Except.bind, pure, Except.pure,
    if_neg h2, if_neg hs1, if_neg hs2, if_neg hs3, if_neg hs4, if_neg hs5, if_neg hs6,
    if_neg hs7, if_neg hs8]

theorem specExpectedValue_isSome (s : String) (tok : TokenList) (n : Nat)
    (hmin : specTagMinTokens s = some n) :
    (specExpectedValue s tok).isSome := by
  unfold specTagMinTokens at hmin
  unfold specExpectedValue
  split_ifs at hmin ⊢ <;> rfl

theorem except_ok_pair_inj {ε α β : Type} {a v : α} {b t2 : β}
    (h : (Except.ok (a, b) : Except ε (α × β)) = .ok (v, t2)) : a = v ∧ b = t2 := by
  injection h with h2
  exact ⟨congrArg Prod.fst h2, congrArg Prod.snd h2⟩

theorem Get_eq (lazy : LazyPropertyMap) (cache : PropertyMap) (tmpl : Option PropertyTable)
    (name : String) :
    PropertyTable.Get (.mk lazy cache tmpl) name =
      match cache.lookup name with
      | some cached => .ok (cached, .mk lazy cache tmpl)
      | none =>
        match lazy.lookup name with
        | some elem => do
            let v ← ReadTypedProperty elem
            .ok (v, .mk lazy ((name, v) :: cache) tmpl)
        | none =>
          match tmpl with
          | some parentTable => do
              let r ← parentTable.Get name
              .ok (r.1, .mk lazy cache (some r.2))
          | none => .ok (none, .mk lazy cache tmpl) := by
  cases tmpl <;> simp only [PropertyTable.Get]

theorem Get_idem_aux : ∀ (d : Nat) (t : PropertyTable), t.chainDepth = d →
    ∀ (t2 : PropertyTable) (v : Option Property) (name : String),
      t.Get name = .ok (v, t2) → t2.Get name = .ok (v, t2) := by
  intro d
  induction d using Nat.strong_induction_on with
  | _ d IH =>
    intro t
    cases t with
    | mk lazy cache tmpl =>
      intro hd t2 v name h
      rw [Get_eq] at h
      cases hc : cache.lookup name with
      | some cached =>
        simp only [hc] at h
        obtain ⟨rfl, rfl⟩ := except_ok_pair_inj h
        rw [Get_eq]
        simp only [hc]
      | none =>
        simp only [hc] at h
        cases hl : lazy.lookup name with
        | some elem =>
          simp only [hl] at h
          cases hr : ReadTypedProperty elem with
          | error err =>
            simp only [hr, bind, Except.bind] at h
            exact Except.noConfusion h
          | ok v0 =>
            simp only [hr, bind, Except.bind] at h
            obtain ⟨rfl, rfl⟩ := except_ok_pair_inj h
            rw [Get_eq]
            simp [List.lookup]
        | none =>
          simp only [hl] at h
          cases tmpl with
          | none =>
            simp only [] at h
            obtain ⟨rfl, rfl⟩ := except_ok_pair_inj h
            rw [Get_eq]
            simp only [hc, hl]
          | some p =>
            simp only [] at h
            cases hp : p.Get name with
            | error err =>
              simp only [hp, bind, Except.bind] at h
              exact Except.noConfusion h
            | ok r =>
              simp only [hp, bind, Except.bind] at h
              obtain ⟨rfl, rfl⟩ := except_ok_pair_inj h
              have hdp : p.chainDepth < d := by
                have hstep : (PropertyTable.mk lazy cache (some p)).chainDepth
                    = p.chainDepth + 1 := rfl
                omega
              have hrec : r.2.Get name = .ok (r.1, r.2) := by
                apply IH p.chainDepth hdp p rfl
                rw [hp]
              rw [Get_eq]
              simp only [hc, hl, hrec, bind, Except.bind]


theorem Get_delegates (lazy : LazyPropertyMap) (cache : PropertyMap) (p : PropertyTable)
    (name : String) (hc : cache.lookup name = none) (hl : lazy.lookup name = none) :
    PropertyTable.Get (.mk lazy cache (some p)) name =
      (p.Get name).map (fun r => (r.1, .mk lazy cache (some r.2))) := by
  rw [Get_eq]
  simp only [hc, hl]
  cases hp : p.Get name <;> simp [Except.map, bind, Except.bind, hp]

theorem Get_noParent (lazy : LazyPropertyMap) (cache : PropertyMap) (name : String)
    (hc : cache.lookup name = none) (hl : lazy.lookup name = none) :
    PropertyTable.Get (.mk lazy cache none) name = .ok (none, .mk lazy cache none) := by
  rw [Get_eq]
  simp only [hc, hl]

theorem Get_negative (lazy : LazyPropertyMap) (cache : PropertyMap)
    (tmpl : Option PropertyTable) (name : String) (elem : Element)
    (hc : cache.lookup name = none) (hl : lazy.lookup name = some elem)
    (hr : ReadTypedProperty elem = .ok none) :
    PropertyTable.Get (.mk lazy cache tmpl) name =
      .ok (none, .mk lazy ((name, none) :: cache) tmpl) := by
  rw [Get_eq]
  simp only [hc, hl, hr, bind, Except.bind]

theorem Get_cached (lazy : LazyPropertyMap) (cache : PropertyMap)
    (tmpl : Option PropertyTable) (name : String) (v : Option Property)
    (hc : cache.lookup name = some v) :
    PropertyTable.Get (.mk lazy cache tmpl) name = .ok (v, .mk lazy cache tmpl) := by
  rw [Get_eq]
  simp only [hc]

theorem Get_propagates_err (lazy : LazyPropertyMap) (cache : PropertyMap)
    (tmpl : Option PropertyTable) (name : String) (elem : Element) (err : DecodeError)
    (hc : cache.lookup name = none) (hl : lazy.lookup name = some elem)
    (hr : ReadTypedProperty elem = .error err) :
    PropertyTable.Get (.mk lazy cache tmpl) name = .error err := by
  rw [Get_eq]
  simp only [hc, hl, hr, bind, Except.bind]

theorem RTP_result (e : Element) :
    (∃ v, ReadTypedProperty e = .ok v) ∨
    (∃ s loc, ReadTypedProperty e = .error (.notEnoughTokens s loc)) := by
  obtain ⟨tok⟩ := e
  by_cases h2 : tok.length < 2
  · exact Or.inl ⟨none, RTP_short tok h2⟩
  · have h1 : tok[1]? = some (tok.getD 1 default) := by
      rw [List.getElem?_eq_getElem (show 1 < tok.length by omega)]
      simp [List.getD, List.getElem?_eq_getElem (show 1 < tok.length by omega)]
    cases hmin : specTagMinTokens (ParseTokenAsString (tok.getD 1 default)) with
    | none => exact Or.inl ⟨none, RTP_unknown tok _ h1 hmin⟩
    | some n =>
      by_cases hn : tok.length < n
      · exact Or.inr ⟨_, _, RTP_supported_err tok _ n h1 hmin hn⟩
      · exact Or.inl ⟨_, RTP_supported_ok tok _ n h1 hmin (by omega)⟩

theorem lookup_eq_none_of_not_mem_keys {β : Type} {l : List (String × β)} {a : String}
    (h : a ∉ l.map Prod.fst) : l.lookup a = none := by
  induction l with
  | nil => rfl
  | cons p rest ih =>
    simp only [List.map_cons, List.mem_cons] at h
    push_neg at h
    simp only [List.lookup]
    have hb : (a == p.1) = false := by simp [h.1]
    rw [hb]
    exact ih h.2


theorem not_mem_keys_of_lookup_eq_none {β : Type} {l : List (String × β)} {a : String}
    (h : l.lookup a = none) : a ∉ l.map Prod.fst := by
  induction l with
  | nil => simp
  | cons p rest ih =>
    simp only [List.lookup] at h
    cases hb : (a == p.1) with
    | true => rw [hb] at h; exact Option.noConfusion h
    | false =>
      rw [hb] at h
      simp only [List.map_cons, List.mem_cons]
      push_neg
      exact ⟨fun he => by simp [he] at hb, ih h⟩

theorem lookup_cons_self {β : Type} (a : String) (b : β) (l : List (String × β)) :
    ((a, b) :: l).lookup a = some b := by
  simp [List.lookup]

theorem lookup_cons_ne {β : Type} (k a : String) (b : β) (l : List (String × β))
    (h : k ≠ a) : ((k, b) :: l).lookup a = l.lookup a := by
  have hb : (a == k) = false := by simp [Ne.symm h]
  simp [List.lookup, hb]

theorem lookup_append {β : Type} (l1 l2 : List (String × β)) (a : String) :
    (l1 ++ l2).lookup a =
      match l1.lookup a with
      | some b => some b
      | none => l2.lookup a := by
  induction l1 with
  | nil => simp [List.lookup]
  | cons p rest ih =>
    cases p with
    | mk k b =>
      simp only [List.cons_append, List.lookup]
      cases hb : (a == k) <;> simp [hb, ih]

theorem unparsedLoop_keys (cache : PropertyMap) :
    ∀ (l : List (String × Element)) (r : List (String × Property)),
      unparsedLoop cache l = .ok r → ∀ name, l.lookup name = none → r.lookup name = none := by
  intro l
  induction l with
  | nil =>
    intro r h name _
    simp only [unparsedLoop] at h
    injection h with h
    rw [← h]
    rfl
  | cons c rest ih =>
    obtain ⟨nm, elem⟩ := c
    intro r h name hln
    by_cases hne : nm = name
    · subst hne
      rw [lookup_cons_self] at hln
      exact Option.noConfusion hln
    · rw [lookup_cons_ne nm name elem rest hne] at hln
      simp only [unparsedLoop] at h
      by_cases hcc : (cache.lookup nm).isSome
      · rw [if_pos hcc] at h
        exact ih r h name hln
      · rw [if_neg hcc] at h
        cases hr : ReadTypedProperty elem with
        | error err =>
          rw [hr] at h
          simp [bind, Except.bind] at h
        | ok p0 =>
          rw [hr] at h
          simp only [bind, Except.bind] at h
          cases hrec : unparsedLoop cache rest with
          | error err =>
            rw [hrec] at h
            simp at h
          | ok restR =>
            rw [hrec] at h
            have hr2 : restR.lookup name = none := ih restR hrec name hln
            cases p0 with
            | none =>
              injection h with h
              rw [← h]
              exact hr2
            | some v0 =>
              injection h with h
              rw [← h]
              rw [lookup_cons_ne nm name v0 restR hne]
              exact hr2

theorem isSome_false_eq_none {β : Type} {o : Option β} (h : ¬ o.isSome) : o = none := by
  cases o with
  | none => rfl
  | some b => simp at h

theorem unparsedLoop_lookup (cache : PropertyMap) :
    ∀ (l : List (String × Element)), (l.map Prod.fst).Nodup →
    ∀ (r : List (String × Property)), unparsedLoop cache l = .ok r →
    ∀ (name : String) (v : Property),
      (r.lookup name = some v ↔
        cache.lookup name = none ∧
        ∃ elem, l.lookup name = some elem ∧ ReadTypedProperty elem = .ok (some v)) := by
  intro l
  induction l with
  | nil =>
    intro _ r h name v
    simp only [unparsedLoop] at h
    injection h with h
    rw [← h]
    constructor
    · intro hcon
      exact Option.noConfusion hcon
    · rintro ⟨-, elem, hcon, -⟩
      exact Option.noConfusion hcon
  | cons c rest ih =>
    obtain ⟨nm, elem⟩ := c
    intro hnodup r h name v
    have hkey : nm ∉ rest.map Prod.fst := by
      simp only [List.map_cons, List.nodup_cons] at hnodup
      exact hnodup.1
    have hnodup2 : (rest.map Prod.fst).Nodup := by
      simp only [List.map_cons, List.nodup_cons] at hnodup
      exact hnodup.2
    have hrestnm : rest.lookup nm = none := lookup_eq_none_of_not_mem_keys hkey
    simp only [unparsedLoop] at h
    by_cases hcc : (cache.lookup nm).isSome
    · rw [if_pos hcc] at h
      by_cases hne : nm = name
      · subst hne
        have hrnone : r.lookup nm = none := unparsedLoop_keys cache rest r h nm hrestnm
        rw [hrnone]
        constructor
        · intro hcon; exact Option.noConfusion hcon
        · rintro ⟨hcn, -⟩
          rw [hcn] at hcc
          simp at hcc
      · rw [lookup_cons_ne nm name elem rest hne]
        exact ih hnodup2 r h name v
    · rw [if_neg hcc] at h
      cases hr : ReadTypedProperty elem with
      | error err =>
        rw [hr] at h
        simp [bind, Except.bind] at h
      | ok p0 =>
        rw [hr] at h
        simp only [bind, Except.bind] at h
        cases hrec : unparsedLoop cache rest with
        | error err =>
          rw [hrec] at h
          simp at h
        | ok restR =>
          rw [hrec] at h
          cases p0 with
          | none =>
            injection h with h
            rw [← h]
            by_cases hne : nm = name
            · subst hne
              have hrnone : restR.lookup nm = none :=
                unparsedLoop_keys cache rest restR hrec nm hrestnm
              rw [hrnone]
              constructor
              · intro hcon; exact Option.noConfusion hcon
              · rintro ⟨-, elem0, hl0, hr0⟩
                rw [lookup_cons_self] at hl0
                injection hl0 with hl0
                rw [← hl0] at hr0
                rw [hr] at hr0
                injection hr0
            · rw [lookup_cons_ne nm name elem rest hne]
              exact ih hnodup2 restR hrec name v
          | some v0 =>
            injection h with h
            rw [← h]
            by_cases hne : nm = name
            · subst hne
              rw [lookup_cons_self]
              constructor
              · intro hv
                injection hv with hv
                exact ⟨isSome_false_eq_none hcc, elem, lookup_cons_self nm elem rest,
                  by rw [hr, hv]⟩
              · rintro ⟨-, elem0, hl0, hr0⟩
                rw [lookup_cons_self] at hl0
                injection hl0 with hl0
                rw [← hl0] at hr0
                rw [hr] at hr0
                injection hr0 with hr0
            · rw [lookup_cons_ne nm name v0 restR hne,
                lookup_cons_ne nm name elem rest hne]
              exact ih hnodup2 restR hrec name v

theorem peek_empty_of_length_zero {e : Element} (h0 : (PeekPropertyName e).length = 0) :
    PeekPropertyName e = "" := by
  cases hpe : PeekPropertyName e with
  | mk data =>
    rw [hpe] at h0
    cases data with
    | nil => rfl
    | cons a as => simp [String.length] at h0

theorem buildLazyProps_step_nonP (key : String) (elem : Element)
    (rest : List (String × Element)) (acc : LazyPropertyMap) (diags : List Diagnostic)
    (hk : ¬ key = "P") :
    buildLazyProps ((key, elem) :: rest) acc diags =
      buildLazyProps rest acc (diags ++ [Diagnostic.nonPElement key elem]) := by
  simp [buildLazyProps, hk]

theorem buildLazyProps_step_unnamed (elem : Element)
    (rest : List (String × Element)) (acc : LazyPropertyMap) (diags : List Diagnostic)
    (h0 : (PeekPropertyName elem).length = 0) :
    buildLazyProps (("P", elem) :: rest) acc diags =
      buildLazyProps rest acc (diags ++ [Diagnostic.unnamedProperty elem]) := by
  simp [buildLazyProps, h0]

theorem buildLazyProps_step_dup (elem : Element) (e0 : Element)
    (rest : List (String × Element)) (acc : LazyPropertyMap) (diags : List Diagnostic)
    (h0 : ¬ (PeekPropertyName elem).length = 0)
    (hacc : acc.lookup (PeekPropertyName elem) = some e0) :
    buildLazyProps (("P", elem) :: rest) acc diags =
      buildLazyProps rest acc
        (diags ++ [Diagnostic.duplicateName (PeekPropertyName elem) elem]) := by
  simp [buildLazyProps, h0, hacc]

theorem buildLazyProps_step_new (elem : Element)
    (rest : List (String × Element)) (acc : LazyPropertyMap) (diags : List Diagnostic)
    (h0 : ¬ (PeekPropertyName elem).length = 0)
    (hacc : acc.lookup (PeekPropertyName elem) = none) :
    buildLazyProps (("P", elem) :: rest) acc diags =
      buildLazyProps rest (acc ++ [(PeekPropertyName elem, elem)]) diags := by
  simp [buildLazyProps, h0, hacc]

theorem buildLazyProps_fst_lookup (name : String) (hn : name ≠ "") :
    ∀ (children : List (String × Element)) (acc : LazyPropertyMap) (diags : List Diagnostic),
      ((buildLazyProps children acc diags).1).lookup name =
        match acc.lookup name with
        | some e => some e
        | none =>
          (children.find? (fun c => c.1 == "P" && PeekPropertyName c.2 == name)).map
            Prod.snd := by
  intro children
  induction children with
  | nil =>
    intro acc diags
    simp only [buildLazyProps, List.find?_nil, Option.map_none]
    cases acc.lookup name <;> rfl
  | cons c rest ih =>
    obtain ⟨key, elem⟩ := c
    intro acc diags
    by_cases hk : key = "P"
    · subst hk
      by_cases h0 : (PeekPropertyName elem).length = 0
      · rw [buildLazyProps_step_unnamed elem rest acc diags h0, ih]
        have hpred : ((PeekPropertyName elem : String) == name) = false := by
          rw [peek_empty_of_length_zero h0]
          simp [Ne.symm hn]
        rw [List.find?_cons]
        simp only [hpred, beq_self_eq_true, Bool.true_and]
      · cases hacc : acc.lookup (PeekPropertyName elem) with
        | some e0 =>
          rw [buildLazyProps_step_dup elem e0 rest acc diags h0 hacc, ih]
          by_cases hne : PeekPropertyName elem = name
          · rw [hne] at hacc
            rw [hacc]
          · have hpred : ((PeekPropertyName elem : String) == name) = false := by
              simp [hne]
            rw [List.find?_cons]
            simp only [hpred, beq_self_eq_true, Bool.true_and]
        | none =>
          rw [buildLazyProps_step_new elem rest acc diags h0 hacc, ih]
          by_cases hne : PeekPropertyName elem = name
          · subst hne
            rw [lookup_append, hacc]
            rw [lookup_cons_self (PeekPropertyName elem) elem []]
            rw [List.find?_cons]
            simp [hacc]
          · have hpred : ((PeekPropertyName elem : String) == name) = false := by
              simp [hne]
            have hskip : (acc ++ [(PeekPropertyName elem, elem)]).lookup name =
                acc.lookup name := by
              rw [lookup_append]
              rw [lookup_cons_ne (PeekPropertyName elem) name elem [] hne]
              cases acc.lookup name <;> rfl
            rw [hskip]
            rw [List.find?_cons]
            simp only [hpred, beq_self_eq_true, Bool.true_and]
    · rw [buildLazyProps_step_nonP key elem rest acc diags hk, ih]
      have hpred : ((key : String) == "P") = false := by simp [hk]
      rw [List.find?_cons]
      simp only [hpred, Bool.false_and]
theorem buildLazyProps_nonP_count :
    ∀ (children : List (String × Element)) (acc : LazyPropertyMap) (diags : List Diagnostic),
      ((buildLazyProps children acc diags).2).countP isNonPDiag =
        diags.countP isNonPDiag + children.countP (fun c => !(c.1 == "P")) := by
  intro children
  induction children with
  | nil => intro acc diags; simp [buildLazyProps]
  | cons c rest ih =>
    obtain ⟨key, elem⟩ := c
    intro acc diags
    by_cases hk : key = "P"
    · subst hk
      by_cases h0 : (PeekPropertyName elem).length = 0
      · rw [buildLazyProps_step_unnamed elem rest acc diags h0, ih]
        simp [List.countP_append, List.countP_cons, isNonPDiag]
      · cases hacc : acc.lookup (PeekPropertyName elem) with
        | some e0 =>
          rw [buildLazyProps_step_dup elem e0 rest acc diags h0 hacc, ih]
          simp [List.countP_append, List.countP_cons, isNonPDiag]
        | none =>
          rw [buildLazyProps_step_new elem rest acc diags h0 hacc, ih]
          simp [List.countP_cons]
    · rw [buildLazyProps_step_nonP key elem rest acc diags hk, ih]
      have hpred : ((key : String) == "P") = false := by simp [hk]
      simp [List.countP_append, List.countP_cons, isNonPDiag, hpred]
      omega

theorem buildLazyProps_unnamed_count :
    ∀ (children : List (String × Element)) (acc : LazyPropertyMap) (diags : List Diagnostic),
      ((buildLazyProps children acc diags).2).countP isUnnamedDiag =
        diags.countP isUnnamedDiag +
          children.countP (fun c => c.1 == "P" && ((PeekPropertyName c.2).length == 0)) := by
  intro children
  induction children with
  | nil => intro acc diags; simp [buildLazyProps]
  | cons c rest ih =>
    obtain ⟨key, elem⟩ := c
    intro acc diags
    by_cases hk : key = "P"
    · subst hk
      by_cases h0 : (PeekPropertyName elem).length = 0
      · rw [buildLazyProps_step_unnamed elem rest acc diags h0, ih]
        simp [List.countP_append, List.countP_cons, isUnnamedDiag, h0]
        omega
      · cases hacc : acc.lookup (PeekPropertyName elem) with
        | some e0 =>
          rw [buildLazyProps_step_dup elem e0 rest acc diags h0 hacc, ih]
          simp [List.countP_append, List.countP_cons, isUnnamedDiag, h0]
        | none =>
          rw [buildLazyProps_step_new elem rest acc diags h0 hacc, ih]
          simp [List.countP_cons, h0]
    · rw [buildLazyProps_step_nonP key elem rest acc diags hk, ih]
      have hpred : ((key : String) == "P") = false := by simp [hk]
      simp [List.countP_append, List.countP_cons, isUnnamedDiag, hpred]

theorem buildLazyProps_dup_count (name : String) (hn : name ≠ "") :
    ∀ (children : List (String × Element)) (acc : LazyPropertyMap) (diags : List Diagnostic),
      ((buildLazyProps children acc diags).2).countP (isDupDiag name) =
        diags.countP (isDupDiag name) +
          (match acc.lookup name with
           | some _ => children.countP (fun c => c.1 == "P" && PeekPropertyName c.2 == name)
           | none =>
             children.countP (fun c => c.1 == "P" && PeekPropertyName c.2 == name) - 1) := by
  intro children
  induction children with
  | nil =>
    intro acc diags
    cases acc.lookup name <;> simp [buildLazyProps]
  | cons c rest ih =>
    obtain ⟨key, elem⟩ := c
    intro acc diags
    by_cases hk : key = "P"
    · subst hk
      by_cases h0 : (PeekPropertyName elem).length = 0
      · rw [buildLazyProps_step_unnamed elem rest acc diags h0, ih]
        have hpred : ((PeekPropertyName elem : String) == name) = false := by
          rw [peek_empty_of_length_zero h0]
          simp [Ne.symm hn]
        have hd : isDupDiag name (Diagnostic.unnamedProperty elem) = false := by
          simp [isDupDiag]
        cases acc.lookup name <;>
          (simp [List.countP_append, List.countP_cons, hd, hpred]; try omega)
      · cases hacc : acc.lookup (PeekPropertyName elem) with
        | some e0 =>
          rw [buildLazyProps_step_dup elem e0 rest acc diags h0 hacc, ih]
          by_cases hne : PeekPropertyName elem = name
          · rw [hne] at hacc
            rw [hacc]
            have hd : isDupDiag name (Diagnostic.duplicateName (PeekPropertyName elem) elem)
                = true := by simp [isDupDiag, hne]
            have hp2 : ((PeekPropertyName elem : String) == name) = true := by simp [hne]
            simp [List.countP_append, List.countP_cons, hd, hp2]
            exact Nat.add_right_comm _ 1 _
          · have hd : isDupDiag name (Diagnostic.duplicateName (PeekPropertyName elem) elem)
                = false := by simp [isDupDiag, hne]
            have hpred : ((PeekPropertyName elem : String) == name) = false := by simp [hne]
            cases acc.lookup name <;>
              (simp [List.countP_append, List.countP_cons, hd, hpred]; try omega)
        | none =>
          rw [buildLazyProps_step_new elem rest acc diags h0 hacc, ih]
          by_cases hne : PeekPropertyName elem = name
          · have haccname : acc.lookup name = none := by rw [← hne]; exact hacc
            have happ : (acc ++ [(PeekPropertyName elem, elem)]).lookup name
                = some elem := by
              rw [lookup_append, haccname, hne]
              exact lookup_cons_self name elem []
            rw [happ, haccname]
            have hp2 : ((PeekPropertyName elem : String) == name) = true := by simp [hne]
            simp [List.countP_cons, hp2]
          · have hpred : ((PeekPropertyName elem : String) == name) = false := by simp [hne]
            have hskip : (acc ++ [(PeekPropertyName elem, elem)]).lookup name =
                acc.lookup name := by
              rw [lookup_append]
              rw [lookup_cons_ne (PeekPropertyName elem) name elem [] hne]
              cases acc.lookup name <;> rfl
            rw [hskip]
            cases acc.lookup name <;>
              (simp [List.countP_cons, hpred]; try omega)
    · rw [buildLazyProps_step_nonP key elem rest acc diags hk, ih]
      have hd : isDupDiag name (Diagnostic.nonPElement key elem) = false := by
        simp [isDupDiag]
      have hpred : ((key : String) == "P") = false := by simp [hk]
      cases acc.lookup name <;>
        (simp [List.countP_append, List.countP_cons, hd, hpred]; try omega)

theorem buildLazyProps_keys_nodup :
    ∀ (children : List (String × Element)) (acc : LazyPropertyMap) (diags : List Diagnostic),
      (acc.map Prod.fst).Nodup →
      (((buildLazyProps children acc diags).1).map Prod.fst).Nodup := by
  intro children
  induction children with
  | nil => intro acc diags h; exact h
  | cons c rest ih =>
    obtain ⟨key, elem⟩ := c
    intro acc diags h
    by_cases hk : key = "P"
    · subst hk
      by_cases h0 : (PeekPropertyName elem).length = 0
      · rw [buildLazyProps_step_unnamed elem rest acc diags h0]
        exact ih acc (diags ++ [.unnamedProperty elem]) h
      · cases hacc : acc.lookup (PeekPropertyName elem) with
        | some e0 =>
          rw [buildLazyProps_step_dup elem e0 rest acc diags h0 hacc]
          exact ih acc (diags ++ [.duplicateName (PeekPropertyName elem) elem]) h
        | none =>
          rw [buildLazyProps_step_new elem rest acc diags h0 hacc]
          apply ih
          rw [List.map_append]
          rw [List.nodup_append_comm]
          simp only [List.map_cons, List.map_nil, List.singleton_append, List.nodup_cons]
          exact ⟨not_mem_keys_of_lookup_eq_none hacc, h⟩
    · rw [buildLazyProps_step_nonP key elem rest acc diags hk]
      exact ih acc (diags ++ [.nonPElement key elem]) h

theorem construct_props_nodup (children : List (String × Element))
    (tmpl : Option PropertyTable) :
    ((PropertyTable.construct children tmpl).1.lazyProps.map Prod.fst).Nodup :=
  buildLazyProps_keys_nodup children [] [] List.nodup_nil
/-- C1: for every record whose type tag (token 1) is one of the supported tags
and that has at least the tag’s minimum token count (5 for KString, bool/Bool,
int/Int/enum/Enum/Integer, ULongLong, KTime and the double family, 7 for the
vector family, 8 for ColorAndAlpha), `ReadTypedProperty` succeeds and returns
exactly the value shape the spec decode table assigns, read from the fixed
token positions starting at index 4 (tokens 4,5,6 for vectors, tokens 4..7 for
RGBA); the result is always a present value. -/
theorem claim1_supported_tag_decodes (e : Element) (t1 : Token) (n : Nat)
    (h1 : e.tokens[1]? = some t1)
    (hmin : specTagMinTokens (ParseTokenAsString t1) = some n)
    (hlen : n ≤ e.tokens.length) :
    ReadTypedProperty e = .ok (specExpectedValue (ParseTokenAsString t1) e.tokens) ∧
      (specExpectedValue (ParseTokenAsString t1) e.tokens).isSome := by
  obtain ⟨tok⟩ := e
  exact ⟨RTP_supported_ok tok t1 n h1 hmin hlen,
    specExpectedValue_isSome (ParseTokenAsString t1) tok n hmin⟩

/-- Witness for C1 at the spec example P("Lcl Rotation","Vector3D","","A",
10.0,20.0,30.0), which decodes to the 3-float vector (10,20,30). -/
theorem claim1_witness :
    (ReadTypedProperty lclRotElem = .ok (specExpectedValue "Vector3D" lclRotElem.tokens) ∧
      (specExpectedValue "Vector3D" lclRotElem.tokens).isSome) ∧
    specExpectedValue "Vector3D" lclRotElem.tokens = some (.vector3 10 20 30) :=
  ⟨claim1_supported_tag_decodes lclRotElem (mkTok "Vector3D" 0 0) 7 rfl rfl (by decide), rfl⟩

/-- C4: for every record with a supported type tag but fewer tokens than the
tag’s minimum count, decoding fails with a decode error carrying the type-tag
string and the source location of token 1 (byte offset when binary, line
number when text); the error is not recovered by `Get`: a table whose raw
index binds an uncached name to such a record propagates the same error out
of `Get`. -/
theorem claim4_known_tag_too_few_tokens (e : Element) (t1 : Token) (n : Nat)
    (h1 : e.tokens[1]? = some t1)
    (hmin : specTagMinTokens (ParseTokenAsString t1) = some n)
    (hshort : e.tokens.length < n) :
    ReadTypedProperty e = .error (.notEnoughTokens (ParseTokenAsString t1) (tokenLoc t1)) ∧
    ∀ (lazy : LazyPropertyMap) (cache : PropertyMap) (tmpl : Option PropertyTable)
      (name : String), cache.lookup name = none → lazy.lookup name = some e →
      PropertyTable.Get (.mk lazy cache tmpl) name =
        .error (.notEnoughTokens (ParseTokenAsString t1) (tokenLoc t1)) := by
  obtain ⟨tok⟩ := e
  have hrtp := RTP_supported_err tok t1 n h1 hmin hshort
  exact ⟨hrtp, fun lazy cache tmpl name hc hl =>
    Get_propagates_err lazy cache tmpl name ⟨tok⟩ _ hc hl hrtp⟩

/-- Witness for C4: a 6-token Vector3D record fails citing line 1 (text
origin), a 3-token KString record with a binary tag token fails citing byte
offset 42, and `Get` propagates the error unchanged. -/
theorem claim4_witness :
    ReadTypedProperty shortVecElem = .error (.notEnoughTokens "Vector3D" (.textLine 1)) ∧
    ReadTypedProperty binShortElem = .error (.notEnoughTokens "KString" (.binaryOffset 42)) ∧
    PropertyTable.Get (.mk [("Bad", shortVecElem)] [] none) "Bad" =
      .error (.notEnoughTokens "Vector3D" (.textLine 1)) :=
  ⟨(claim4_known_tag_too_few_tokens shortVecElem (mkTok "Vector3D" 0 0) 7 rfl rfl (by decide)).1,
   (claim4_known_tag_too_few_tokens binShortElem (binTok "KString") 5 rfl rfl (by decide)).1,
   (claim4_known_tag_too_few_tokens shortVecElem (mkTok "Vector3D" 0 0) 7 rfl rfl
     (by decide)).2 [("Bad", shortVecElem)] [] none "Bad" rfl rfl⟩

/-- C5: a record with fewer than 2 tokens, and a record whose type tag is not
in the supported set, both make `ReadTypedProperty` return empty successfully
(no error, no diagnostic — the function only returns `none`). -/
theorem claim5_unknown_or_short_silent (e : Element) :
    (e.tokens.length < 2 → ReadTypedProperty e = .ok none) ∧
    (∀ t1, e.tokens[1]? = some t1 → specTagMinTokens (ParseTokenAsString t1) = none →
      ReadTypedProperty e = .ok none) := by
  obtain ⟨tok⟩ := e
  exact ⟨fun h => RTP_short tok h, fun t1 h1 hmin => RTP_unknown tok t1 h1 hmin⟩

/-- Witness for C5: the unknown tag "MyType" and a 1-token record both decode
to empty without error. -/
theorem claim5_witness :
    ReadTypedProperty customElem = .ok none ∧
    ReadTypedProperty (⟨[mkTok "N" 0 0]⟩ : Element) = .ok none :=
  ⟨(claim5_unknown_or_short_silent customElem).2 (mkTok "MyType" 0 0) rfl rfl,
   (claim5_unknown_or_short_silent ⟨[mkTok "N" 0 0]⟩).1 (by decide)⟩

/-- C10: `ReadTypedProperty` never produces the `oobAccess` or `assertFail`
error: every `checkTokenCount` call site passes an expected count of at least
2 on a token list already known to hold at least 2 tokens (the early return
guards `tok.size() < 2`), so the assertion holds and the error-path access to
token index 1 — as well as every subsequent fixed-position access — is in
bounds. -/
theorem claim10_token_access_safe (e : Element) :
    ReadTypedProperty e ≠ .error .oobAccess ∧
    ReadTypedProperty e ≠ .error .assertFail := by
  rcases RTP_result e with ⟨v, hv⟩ | ⟨s, loc, hv⟩ <;> rw [hv]
  · exact ⟨fun h => Except.noConfusion h, fun h => Except.noConfusion h⟩
  · constructor <;> intro h <;> injection h with h2 <;> exact DecodeError.noConfusion h2

/-- C2: `Get` is idempotent in value and state: if a call on table `t` returns
value `v` with updated table `t2`, calling `Get` again on `t2` returns the
same `v` and leaves `t2` unchanged.  Since every decode inserts a cache entry
for the requested name (including a stored `none` for an empty decode), an
unchanged table means the second call performed no decode: each name is
decoded at most once per owning table, and an empty result is a permanent
negative cache entry that is never re-attempted. -/
theorem claim2_get_idempotent (t t2 : PropertyTable) (name : String) (v : Option Property)
    (h : t.Get name = .ok (v, t2)) : t2.Get name = .ok (v, t2) :=
  Get_idem_aux t.chainDepth t rfl t2 v name h

/-- Witness for C2: after a first `Get "Weight"` on a fresh one-entry table
(discharged by `rfl`), the second call returns the same cached value and the
same table. -/
theorem claim2_witness :
    PropertyTable.Get
        (.mk [("Weight", weightElem)] [("Weight", some (.floatVal (1/2)))] none) "Weight" =
      .ok (some (.floatVal (1/2)),
        .mk [("Weight", weightElem)] [("Weight", some (.floatVal (1/2)))] none) :=
  claim2_get_idempotent (.mk [("Weight", weightElem)] [] none) _ "Weight" _ rfl

/-- C3: for a name absent from both the cache and the raw index, `Get` with a
template table returns exactly the template’s `Get` result (the local
`lazyProps` and `props` are returned untouched — nothing is written into the
local cache — and only the parent component is updated), so a multi-level
chain resolves transitively by applying this equation at each level; with no
template, `Get` returns empty. -/
theorem claim3_absent_name_delegates (lazy : LazyPropertyMap) (cache : PropertyMap)
    (tmpl : Option PropertyTable) (name : String)
    (hc : cache.lookup name = none) (hl : lazy.lookup name = none) :
    (∀ p, tmpl = some p →
      PropertyTable.Get (.mk lazy cache tmpl) name =
        (p.Get name).map (fun r => (r.1, .mk lazy cache (some r.2)))) ∧
    (tmpl = none →
      PropertyTable.Get (.mk lazy cache tmpl) name = .ok (none, .mk lazy cache tmpl)) := by
  constructor
  · rintro p rfl
    exact Get_delegates lazy cache p name hc hl
  · rintro rfl
    exact Get_noParent lazy cache name hc hl
/-- Witness for C3 on a three-level chain: the bottom table delegates to the
middle one, a table without template resolves to empty, and the full chain
resolves "Weight" transitively to the top table’s value. -/
theorem claim3_witness :
    (PropertyTable.Get (.mk [] [] (some midT)) "Weight" =
      (midT.Get "Weight").map (fun r => (r.1, .mk [] [] (some r.2)))) ∧
    (PropertyTable.Get (.mk ([] : LazyPropertyMap) [] none) "Weight" =
      .ok (none, .mk [] [] none)) ∧
    (PropertyTable.Get (.mk [] [] (some midT)) "Weight" =
      .ok (some (.floatVal (1/2)),
        .mk [] [] (some (.mk [] [] (some (.mk [("Weight", weightElem)]
          [("Weight", some (.floatVal (1/2)))] none)))))) :=
  ⟨(claim3_absent_name_delegates [] [] (some midT) "Weight" rfl rfl).1 midT rfl,
   (claim3_absent_name_delegates [] [] none "Weight" rfl rfl).2 rfl,
   rfl⟩

/-- C9: a name present in the table’s own raw index whose record decodes to
empty resolves to empty without consulting the template chain — the template
is arbitrary here and appears unchanged in the result — and the stored
negative entry makes every subsequent call return empty from the cache. -/
theorem claim9_local_empty_shadows_template (lazy : LazyPropertyMap) (cache : PropertyMap)
    (tmpl : Option PropertyTable) (name : String) (elem : Element)
    (hc : cache.lookup name = none) (hl : lazy.lookup name = some elem)
    (hr : ReadTypedProperty elem = .ok none) :
    PropertyTable.Get (.mk lazy cache tmpl) name =
      .ok (none, .mk lazy ((name, none) :: cache) tmpl) ∧
    PropertyTable.Get (.mk lazy ((name, none) :: cache) tmpl) name =
      .ok (none, .mk lazy ((name, none) :: cache) tmpl) :=
  ⟨Get_negative lazy cache tmpl name elem hc hl hr,
   Get_cached lazy ((name, none) :: cache) tmpl name none (lookup_cons_self name none cache)⟩
/-- Witness for C9: "Custom" decodes to empty in the child although the
template table defines a non-empty value for the same name; the first call
caches the negative entry, the second call hits it. -/
theorem claim9_witness :
    (PropertyTable.Get (.mk [("Custom", customElem)] [] (some richParentT)) "Custom" =
      .ok (none, .mk [("Custom", customElem)] [("Custom", none)] (some richParentT))) ∧
    (PropertyTable.Get (.mk [("Custom", customElem)] [("Custom", none)] (some richParentT))
        "Custom" =
      .ok (none, .mk [("Custom", customElem)] [("Custom", none)] (some richParentT))) ∧
    richParentT.Get "Custom" =
      .ok (some (.floatVal (1/2)),
        .mk [("Custom", custom2Elem)] [("Custom", some (.floatVal (1/2)))] none) :=
  ⟨(claim9_local_empty_shadows_template [("Custom", customElem)] [] (some richParentT)
      "Custom" customElem rfl rfl rfl).1,
   (claim9_local_empty_shadows_template [("Custom", customElem)] [] (some richParentT)
      "Custom" customElem rfl rfl rfl).2,
   rfl⟩

/-- C6: when `GetUnparsedProperties` succeeds on a table with distinct raw
names, its result maps exactly the names of the raw index that have no cache
entry and whose record decodes to a non-empty value, each to its freshly
decoded value.  In this embedding the function takes the table by value and
returns only the result map — mirroring that the C++ code only reads
`lazyProps` and `props` and writes the local `result` — so the cache and all
subsequent `Get` behaviour are unchanged, and repeated calls re-decode. -/
theorem claim6_unparsed_characterized (t : PropertyTable) (r : List (String × Property))
    (hnodup : (t.lazyProps.map Prod.fst).Nodup)
    (h : t.GetUnparsedProperties = .ok r) (name : String) (v : Property) :
    r.lookup name = some v ↔
      t.props.lookup name = none ∧
      ∃ elem, t.lazyProps.lookup name = some elem ∧
        ReadTypedProperty elem = .ok (some v) :=
  unparsedLoop_lookup t.props t.lazyProps hnodup r h name v

/-- Witness for C6: on a table holding a decodable "Weight" record and an
undecodable "Custom" record with an empty cache, the result holds exactly
"Weight" with its decoded value. -/
theorem claim6_witness :
    ([("Weight", Property.floatVal (1/2))].lookup "Weight" =
        some (Property.floatVal (1/2))) ↔
      (([] : PropertyMap).lookup "Weight" = none ∧
       ∃ elem,
         [("Weight", weightElem), ("Custom", customElem)].lookup "Weight" = some elem ∧
         ReadTypedProperty elem = .ok (some (Property.floatVal (1/2)))) :=
  claim6_unparsed_characterized
    (.mk [("Weight", weightElem), ("Custom", customElem)] [] none)
    [("Weight", Property.floatVal (1/2))] (by decide) rfl "Weight" (Property.floatVal (1/2))

/-- C7: construction scans the children once: the raw index maps each usable
name (nonempty, from a "P" child with at least 4 tokens) to the first "P"
child bearing it; each non-"P" child yields one diagnostic, each "P" child
without usable name yields one diagnostic, and each duplicate of an
already-indexed name yields exactly one diagnostic (occurrences minus one)
while never overwriting the first binding; a "P" record with fewer than 4
tokens peeks to the empty (unusable) name. -/
theorem claim7_construction_index_and_diags (children : List (String × Element))
    (tmpl : Option PropertyTable) (name : String) (hn : name ≠ "") :
    ((PropertyTable.construct children tmpl).1.lazyProps.lookup name =
      (children.find? (fun c => c.1 == "P" && PeekPropertyName c.2 == name)).map Prod.snd) ∧
    ((PropertyTable.construct children tmpl).2.countP isNonPDiag =
      children.countP (fun c => !(c.1 == "P"))) ∧
    ((PropertyTable.construct children tmpl).2.countP isUnnamedDiag =
      children.countP (fun c => c.1 == "P" && ((PeekPropertyName c.2).length == 0))) ∧
    ((PropertyTable.construct children tmpl).2.countP (isDupDiag name) =
      children.countP (fun c => c.1 == "P" && PeekPropertyName c.2 == name) - 1) ∧
    (∀ e : Element, e.tokens.length < 4 → PeekPropertyName e = "") := by
  refine ⟨?_, ?_, ?_, ?_, ?_⟩
  · have hlk := buildLazyProps_fst_lookup name hn children [] []
    simp only [List.lookup] at hlk
    exact hlk
  · have hcnt := buildLazyProps_nonP_count children [] []
    simpa using hcnt
  · have hcnt := buildLazyProps_unnamed_count children [] []
    simpa using hcnt
  · have hcnt := buildLazyProps_dup_count name hn children [] []
    simp only [List.lookup, List.countP_nil] at hcnt
    have hshow : (PropertyTable.construct children tmpl).2 =
        (buildLazyProps children [] []).2 := rfl
    rw [hshow]
    omega
  · intro e he
    simp [PeekPropertyName, he]

/-- Witness for C7 on a child list with one non-"P" child, one unnamed "P"
record, and two "P" records named "Weight" (first occurrence wins, one
duplicate diagnostic). -/
theorem claim7_witness : (("Weight" : String) ≠ "") ∧
    (((PropertyTable.construct demoChildren none).1.lazyProps.lookup "Weight" =
      (demoChildren.find? (fun c => c.1 == "P" && PeekPropertyName c.2 == "Weight")).map
        Prod.snd) ∧
    ((PropertyTable.construct demoChildren none).2.countP isNonPDiag =
      demoChildren.countP (fun c => !(c.1 == "P"))) ∧
    ((PropertyTable.construct demoChildren none).2.countP isUnnamedDiag =
      demoChildren.countP (fun c => c.1 == "P" && ((PeekPropertyName c.2).length == 0))) ∧
    ((PropertyTable.construct demoChildren none).2.countP (isDupDiag "Weight") =
      demoChildren.countP (fun c => c.1 == "P" && PeekPropertyName c.2 == "Weight") - 1) ∧
    (∀ e : Element, e.tokens.length < 4 → PeekPropertyName e = "")) :=
  ⟨by decide, claim7_construction_index_and_diags demoChildren none "Weight" (by decide)⟩


/-- Witness for C10 at the concrete unknown-tag record. -/
theorem claim10_witness :
    ReadTypedProperty customElem ≠ .error .oobAccess ∧
    ReadTypedProperty customElem ≠ .error .assertFail :=
  claim10_token_access_safe customElem

end FBX
